import Mathlib

/-!
Verification of the btc15m-data market-data recorder.

This file gives a shallow embedding, in Lean 4, of the core state and
operations of the recorder: the Kalshi WebSocket feed (order books,
subscription reconciliation, connect-time reset), the BRTI reference-index
median, the collector watchdog and discovery cadence, the daily-rotating
JSONL writer, and the REST market client.  Go maps are modelled as
association lists, wall-clock instants as UTC nanosecond counts (Int),
and float64 prices as rationals.  Theorems at the end of the file settle
the specification claims against these definitions.
-/

namespace Btc15m

/-- Lookup in an association list, the model of a Go map read. -/
def alookup {α β : Type} [DecidableEq α] : List (α × β) → α → Option β
  | [], _ => none
  | (k, v) :: rest, a => if k = a then some v else alookup rest a

/-- Insert or replace a key, the model of a Go map assignment. -/
def aset {α β : Type} [DecidableEq α] : List (α × β) → α → β → List (α × β)
  | [], a, b => [(a, b)]
  | (k, v) :: rest, a, b => if k = a then (a, b) :: rest else (k, v) :: aset rest a b

/-- Remove a key, the model of a Go map delete. -/
def aerase {α β : Type} [DecidableEq α] (m : List (α × β)) (a : α) : List (α × β) :=
  m.filter (fun kv => decide (kv.1 ≠ a))

/-- Nanoseconds per second; durations and instants are Int nanoseconds. -/
def NS_PER_SEC : Int := 1000000000

/-- Orderbook (kalshi feed): price-cents to quantity maps for the YES and
NO sides plus the ready flag. -/
structure Orderbook where
  yes : List (Int × Int)
  no : List (Int × Int)
  ready : Bool
deriving DecidableEq

/-- MarketPrice (kalshi feed): real-time ticker data from the WS. -/
structure MarketPrice where
  yesBid : Int
  yesAsk : Int
  lastPrice : Int
  volume : Int
  openInterest : Int
deriving DecidableEq

/-- MarketMeta (kalshi feed): REST-sourced metadata; expiry is the parsed
expiration instant in UTC nanoseconds. -/
structure MarketMeta where
  status : String
  result : String
  strike : ℚ
  expiry : Int
deriving DecidableEq

/-- Builds one side of a book from the levels of an orderbook_snapshot
message: the Go fill loop writes each level into a fresh map, so a later
duplicate price wins. -/
def buildSide (levels : List (Int × Int)) : List (Int × Int) :=
  levels.foldl (fun m lv => aset m lv.1 lv.2) []

/-- handleOrderbookDelta inner update: add the delta to the level and
delete the level when its quantity falls to zero or below. -/
def applyDelta (side : List (Int × Int)) (price delta : Int) : List (Int × Int) :=
  let q := (alookup side price).getD 0 + delta
  if q ≤ 0 then aerase side price else aset side price q

/-- Stream messages that affect the per-ticker order books, plus the
connect-time reset.  Ticker messages are carried too; they leave the books
untouched (handleTicker only writes the prices map). -/
inductive WsMsg where
  | obSnapshot (ticker : String) (yes no : List (Int × Int))
  | obDelta (ticker : String) (price delta : Int) (side : String)
  | tickerMsg (ticker : String) (p : MarketPrice)
  | reconnect
deriving DecidableEq

/-- One step of the book state: handleOrderbookSnapshot replaces both
sides and sets ready; handleOrderbookDelta applies only when the book
exists and is ready, to the YES side when side is the string yes and to
the NO side otherwise; connect clears all books. -/
def stepBooks (bs : List (String × Orderbook)) : WsMsg → List (String × Orderbook)
  | .obSnapshot t ys ns => aset bs t ⟨buildSide ys, buildSide ns, true⟩
  | .obDelta t price delta sd =>
      match alookup bs t with
      | none => bs
      | some b =>
          if b.ready then
            if sd = "yes" then aset bs t { b with yes := applyDelta b.yes price delta }
            else aset bs t { b with no := applyDelta b.no price delta }
          else bs
  | .tickerMsg _ _ => bs
  | .reconnect => []

/-- The book state after a sequence of received messages, starting from
the empty map a fresh feed holds. -/
def runBooks (ms : List WsMsg) : List (String × Orderbook) :=
  ms.foldl stepBooks []

/-- Every level on a side has positive quantity. -/
def sidePos (side : List (Int × Int)) : Prop := ∀ lv ∈ side, 0 < lv.2

/-- Both sides of a book have only positive quantities. -/
def bookPos (b : Orderbook) : Prop := sidePos b.yes ∧ sidePos b.no

/-- Every tracked book has only positive quantities. -/
def booksPos (bs : List (String × Orderbook)) : Prop := ∀ e ∈ bs, bookPos e.2

instance (side : List (Int × Int)) : Decidable (sidePos side) := by
  unfold sidePos; infer_instance

instance (b : Orderbook) : Decidable (bookPos b) := by
  unfold bookPos; infer_instance

instance (bs : List (String × Orderbook)) : Decidable (booksPos bs) := by
  unfold booksPos; infer_instance

/-- A snapshot message whose levels all carry positive quantity; other
messages trivially qualify. -/
def snapPos : WsMsg → Bool
  | .obSnapshot _ ys ns =>
      ys.all (fun lv => decide (0 < lv.2)) && ns.all (fun lv => decide (0 < lv.2))
  | _ => true

/-- The addressed ticker has no ready book in the given state. -/
def notReadyAt (bs : List (String × Orderbook)) (t : String) : Prop :=
  ∀ b, alookup bs t = some b → b.ready = false

/-- Collector.watchdog stall check, with now and lastWrite as UTC
nanoseconds and lastWrite = 0 modelling the Go zero time: returns true
iff the shared scope is cancelled on this 30 s tick. -/
def watchdogStall (now lastWrite : Int) : Bool :=
  if lastWrite = 0 then false
  else decide (now - lastWrite > 90 * NS_PER_SEC)

/-- Collector.discoveryInterval: the loop period in seconds as a function
of the clock minute (Go computes minute mod 15 and compares to 1 and 14). -/
def discoveryInterval (minute : Nat) : Nat :=
  let m := minute % 15
  if m ≤ 1 ∨ m ≥ 14 then 5 else 30

/-- KalshiFeed state: the read-side maps (prices, books, metadata, desired
tickers) and the write-side state (connection presence, channel SIDs,
subscribed set, command sequence) plus the connected flag. -/
structure FeedState where
  prices : List (String × MarketPrice)
  books : List (String × Orderbook)
  metadata : List (String × MarketMeta)
  desiredTickers : List String
  hasConn : Bool
  tickerSID : Int
  orderbookSID : Int
  subscribedTickers : List String
  cmdSeq : Int
  connected : Bool
deriving DecidableEq

/-- Commands written to the WebSocket. -/
inductive WsCommand where
  | subscribe (id : Int) (tickers : List String)
  | updateSub (id : Int) (sids : List Int) (action : String) (tickers : List String)
deriving DecidableEq

/-- Adds each ticker to a duplicate-free membership list, the model of
setting map keys to true. -/
def addAll (set : List String) : List String → List String
  | [] => set
  | t :: ts => addAll (if t ∈ set then set else set ++ [t]) ts

/-- Deletes each ticker from a membership list, the model of map deletes. -/
def removeAll (set : List String) : List String → List String
  | [] => set
  | t :: ts => removeAll (set.filter (fun x => decide (x ≠ t))) ts

/-- The membership set built from a ticker slice (the desired map). -/
def dedup (ts : List String) : List String := addAll [] ts

/-- KalshiFeed.connect write-side reset: replace the connection, zero both
SIDs, empty the subscribed set, zero the command sequence, and clear all
order books; prices and metadata are untouched. -/
def postDial (s : FeedState) : FeedState :=
  { s with hasConn := true, tickerSID := 0, orderbookSID := 0,
           subscribedTickers := [], cmdSeq := 0, books := [] }

/-- The add branch of UpdateSubscriptions: on a non-empty toAdd, send a
fresh subscribe when tickerSID is zero and an add_markets update
otherwise, then mark every added ticker subscribed. -/
def addStep (toAdd : List String) (s : FeedState) : FeedState × List WsCommand :=
  if toAdd = [] then (s, [])
  else if s.tickerSID = 0 then
    ({ s with cmdSeq := s.cmdSeq + 1,
              subscribedTickers := addAll s.subscribedTickers toAdd },
     [.subscribe (s.cmdSeq + 1) toAdd])
  else
    ({ s with cmdSeq := s.cmdSeq + 1,
              subscribedTickers := addAll s.subscribedTickers toAdd },
     [.updateSub (s.cmdSeq + 1) [s.tickerSID, s.orderbookSID] "add_markets" toAdd])

/-- The remove branch of UpdateSubscriptions: only when toRemove is
non-empty and tickerSID is non-zero, send a remove_markets update and
delete the removed tickers from the subscribed set. -/
def removeStep (toRemove : List String) (s : FeedState) : FeedState × List WsCommand :=
  if toRemove ≠ [] ∧ s.tickerSID ≠ 0 then
    ({ s with cmdSeq := s.cmdSeq + 1,
              subscribedTickers := removeAll s.subscribedTickers toRemove },
     [.updateSub (s.cmdSeq + 1) [s.tickerSID, s.orderbookSID] "remove_markets" toRemove])
  else (s, [])

/-- The cache cleanup at the end of UpdateSubscriptions: for a non-empty
toRemove, delete each removed ticker from prices, books and metadata. -/
def cleanupStep (toRemove : List String) (s : FeedState) : FeedState :=
  if toRemove = [] then s
  else { s with prices := toRemove.foldl aerase s.prices,
                books := toRemove.foldl aerase s.books,
                metadata := toRemove.foldl aerase s.metadata }

/-- The connected part of UpdateSubscriptions: after the desired set has
been stored, diff it against the subscribed set, run the add branch, the
remove branch and the cache cleanup, and return the commands written. -/
def updateSubsCore (s : FeedState) : FeedState × List WsCommand :=
  let toAdd := s.desiredTickers.filter (fun t => decide (t ∉ s.subscribedTickers))
  let toRemove := s.subscribedTickers.filter (fun t => decide (t ∉ s.desiredTickers))
  (cleanupStep toRemove (removeStep toRemove (addStep toAdd s).1).1,
   (addStep toAdd s).2 ++ (removeStep toRemove (addStep toAdd s).1).2)

/-- KalshiFeed.UpdateSubscriptions: store the new desired set; return
early when not connected or the connection is nil; otherwise run the
connected diff. -/
def updateSubscriptions (tickers : List String) (s0 : FeedState) :
    FeedState × List WsCommand :=
  let s : FeedState := { s0 with desiredTickers := dedup tickers }
  if s.connected then
    if s.hasConn then updateSubsCore s
    else (s, [])
  else (s, [])

/-- The merged per-market view returned by KalshiFeed.Snapshot. -/
structure MarketSnapshot where
  ticker : String
  status : String
  result : String
  yesBid : Int
  yesAsk : Int
  lastPrice : Int
  volume : Int
  openInterest : Int
  secsLeft : Int
  strike : ℚ
  yesBook : List (Int × Int)
  noBook : List (Int × Int)
  fromWS : Bool
deriving DecidableEq

/-- Seconds-to-expiry as the Go code computes it: the truncating int cast
of time.Until(expiry).Seconds(), clamped at zero.  Int.tdiv truncates
toward zero exactly like the float-to-int conversion (float rounding on
astronomically large durations is out of scope). -/
def secsLeftClamped (expiry now : Int) : Int :=
  let s := Int.tdiv (expiry - now) NS_PER_SEC
  if s < 0 then 0 else s

/-- sortedLevels: a price-to-quantity map serialized as level pairs sorted
by price ascending (keys are unique, so the sort order is unambiguous). -/
def sortedLevels (m : List (Int × Int)) : List (Int × Int) :=
  m.insertionSort (fun a b => a.1 ≤ b.1)

/-- The per-ticker view built inside KalshiFeed.Snapshot: metadata fields
and clamped seconds-to-expiry always; price fields merged from the prices
map when present; book levels merged only from a ready book. -/
def mkWsView (prices : List (String × MarketPrice)) (books : List (String × Orderbook))
    (now : Int) (ticker : String) (meta : MarketMeta) : MarketSnapshot :=
  let base : MarketSnapshot :=
    { ticker := ticker, status := meta.status, result := meta.result,
      strike := meta.strike, fromWS := true,
      yesBid := 0, yesAsk := 0, lastPrice := 0, volume := 0, openInterest := 0,
      secsLeft := secsLeftClamped meta.expiry now,
      yesBook := [], noBook := [] }
  let withPrice :=
    match alookup prices ticker with
    | some p => { base with yesBid := p.yesBid, yesAsk := p.yesAsk,
                            lastPrice := p.lastPrice, volume := p.volume,
                            openInterest := p.openInterest }
    | none => base
  match alookup books ticker with
  | some b =>
      if b.ready then
        { withPrice with yesBook := sortedLevels b.yes, noBook := sortedLevels b.no }
      else withPrice
  | none => withPrice

/-- KalshiFeed.Snapshot: one merged view per ticker present in metadata. -/
def wsSnapshot (metadata : List (String × MarketMeta))
    (prices : List (String × MarketPrice)) (books : List (String × Orderbook))
    (now : Int) : List MarketSnapshot :=
  metadata.map (fun e => mkWsView prices books now e.1 e.2)

/-- A market row from the REST markets endpoint.  The expiry field models
ExpirationParsed (the RFC3339 string parse is abstracted; the Go zero time
on a parse failure is a hugely negative instant) and rulesStrike models
the strike parsed out of rules_primary by the regex fallback. -/
structure Market where
  ticker : String
  status : String
  result : String
  yesBid : Int
  yesAsk : Int
  lastPrice : Int
  volume : Int
  openInterest : Int
  capStrike : ℚ
  floorStrike : ℚ
  rulesStrike : ℚ
  expiry : Int
deriving DecidableEq

/-- Market.StrikePrice: cap strike when positive, else floor strike when
positive, else the value recovered from the rules text. -/
def strikePrice (m : Market) : ℚ :=
  if m.capStrike > 0 then m.capStrike
  else if m.floorStrike > 0 then m.floorStrike
  else m.rulesStrike

/-- collector.MarketSnap, the per-market record written to the log. -/
structure MarketSnap where
  ticker : String
  yesBid : Int
  yesAsk : Int
  lastPrice : Int
  volume : Int
  openInt : Int
  strike : ℚ
  secsLeft : Int
  status : String
  result : String
  yesBook : List (Int × Int)
  noBook : List (Int × Int)
deriving DecidableEq

/-- Collector.restFallback applied to the union of the open and closed
market lists: views without book depth, seconds-to-expiry clamped. -/
def restFallback (allMarkets : List Market) (now : Int) : List MarketSnap :=
  allMarkets.map (fun m =>
    { ticker := m.ticker, yesBid := m.yesBid, yesAsk := m.yesAsk,
      lastPrice := m.lastPrice, volume := m.volume, openInt := m.openInterest,
      strike := strikePrice m, secsLeft := secsLeftClamped m.expiry now,
      status := m.status, result := m.result, yesBook := [], noBook := [] })

/-- One non-stale observation of a spot feed: the stale flag and the
current mid-price (float64 modelled as a rational). -/
structure FeedObs where
  stale : Bool
  mid : ℚ
deriving DecidableEq

/-- The mid-prices collected by BRTIProxy.Snapshot: non-stale feeds whose
price is positive, in feed order. -/
def freshPrices (feeds : List FeedObs) : List ℚ :=
  feeds.filterMap (fun f => if f.stale = false ∧ f.mid > 0 then some f.mid else none)

/-- feed median: expects a sorted slice; the mean of the two centre values
for even lengths, the centre value for odd lengths, zero for the empty
slice. -/
def median (sorted : List ℚ) : ℚ :=
  let n := sorted.length
  if n = 0 then 0
  else if n % 2 = 0 then (sorted.getD (n / 2 - 1) 0 + sorted.getD (n / 2) 0) / 2
  else sorted.getD (n / 2) 0

/-- sort.Float64s: ascending sort. -/
def sortRat (l : List ℚ) : List ℚ := l.insertionSort (· ≤ ·)

/-- BRTIProxy.Snapshot as a function of the feed observations and the
stored price: returns the computed value and the new stored price.  With
no fresh price the stored price is returned unchanged. -/
def brtiSnapshot (feeds : List FeedObs) (lastPrice : ℚ) : ℚ × ℚ :=
  let prices := freshPrices feeds
  if prices = [] then (lastPrice, lastPrice)
  else
    let m := median (sortRat prices)
    (m, m)

/-- NewBRTIProxy leaves the stored price at its zero value. -/
def brtiInitPrice : ℚ := 0

/-- Filesystem effects of the writer, in the order they happen. -/
inductive FsEvent where
  | closeFile (path : String)
  | openFile (path : String)
  | compress (path : String)
  | appendLine (path : String) (line : String)
deriving DecidableEq

/-- Writer state: the open file (by path) and its date string. -/
structure WriterState where
  file : Option String
  fileDate : String
deriving DecidableEq

/-- The day-keyed log path dir/pfx-date.jsonl. -/
def logPath (dir pfx date : String) : String :=
  dir ++ "/" ++ pfx ++ "-" ++ date ++ ".jsonl"

/-- Writer.ensureFile: keep the current file when its date is today;
otherwise close the previous file (capturing its path), open the file for
today, and hand the captured path to the background compressor. -/
def ensureFile (dir pfx today : String) (s : WriterState) : WriterState × List FsEvent :=
  if s.file.isSome ∧ s.fileDate = today then (s, [])
  else
    let path := logPath dir pfx today
    match s.file with
    | some prev => (⟨some path, today⟩, [.closeFile prev, .openFile path, .compress prev])
    | none => (⟨some path, today⟩, [.openFile path])

/-- Writer.Write: ensure the file for today (today being the UTC date at
write time) and append the serialized record as one line to it. -/
def writeRecord (dir pfx today line : String) (s : WriterState) :
    WriterState × List FsEvent :=
  let r := ensureFile dir pfx today s
  (r.1, r.2 ++ [.appendLine (r.1.file.getD "") line])

/-- One page of the markets endpoint: for a limit and a cursor the server
returns a page of markets and the next cursor, empty on the last page. -/
structure MarketsAPI where
  page : Nat → String → List Market × String

/-- Client.GetMarkets: sends one request with limit 200 and returns the
markets of the response; the returned cursor is not followed. -/
def getMarkets (api : MarketsAPI) : List Market :=
  (api.page 200 "").1

/-- The claim-side collection the spec describes: request with limit 200
and follow the returned cursor until it is empty, concatenating pages
(fuel bounds the recursion). -/
def getMarketsAllPages (api : MarketsAPI) : Nat → String → List Market
  | 0, _ => []
  | fuel + 1, cursor =>
      let r := api.page 200 cursor
      if r.2 = "" then r.1
      else r.1 ++ getMarketsAllPages api fuel r.2

/-- The S2 message sequence of the spec: a snapshot for ticker T followed
by two deltas. -/
def wmsS2 : List WsMsg :=
  [WsMsg.obSnapshot "T" [(50, 10), (51, 5)] [(49, 8)],
   WsMsg.obDelta "T" 51 3 "yes", WsMsg.obDelta "T" 49 (-8) "no"]

/-- The S4 reconcile scenario: a connected stream with acknowledged SIDs
subscribed to A, B and C. -/
def s4state : FeedState :=
  { prices := [("A", ⟨1, 2, 1, 0, 0⟩)], books := [], metadata := [],
    desiredTickers := ["A", "B", "C"], hasConn := true, tickerSID := 5,
    orderbookSID := 6, subscribedTickers := ["A", "B", "C"], cmdSeq := 3,
    connected := true }

/-- A connected stream that has sent a subscribe but not yet processed
the acknowledgement, so both SIDs are still zero. -/
def sidZeroState : FeedState :=
  { prices := [], books := [], metadata := [], desiredTickers := ["A"],
    hasConn := true, tickerSID := 0, orderbookSID := 0,
    subscribedTickers := ["A"], cmdSeq := 1, connected := true }

/-- A connected stream already subscribed to B and C. -/
def idemState : FeedState :=
  { prices := [("B", ⟨10, 12, 11, 7, 3⟩)], books := [("C", ⟨[(50, 1)], [], true⟩)],
    metadata := [], desiredTickers := ["B", "C"], hasConn := true, tickerSID := 5,
    orderbookSID := 6, subscribedTickers := ["B", "C"], cmdSeq := 4,
    connected := true }

/-- A market row with all numeric fields zero, for concrete scenarios. -/
def mkMarket (t : String) : Market :=
  { ticker := t, status := "open", result := "", yesBid := 0, yesAsk := 0,
    lastPrice := 0, volume := 0, openInterest := 0, capStrike := 0,
    floorStrike := 0, rulesStrike := 0, expiry := 0 }

/-- A paged markets endpoint whose first page carries a non-empty cursor
and whose second page is final. -/
def twoPageAPI : MarketsAPI :=
  ⟨fun _ c =>
    if c = "" then ([mkMarket "M1"], "c1")
    else if c = "c1" then ([mkMarket "M2"], "")
    else ([], "")⟩

/-- A markets endpoint whose single page is final. -/
def onePageAPI : MarketsAPI :=
  ⟨fun _ _ => ([mkMarket "M1"], "")⟩

/-! ### Association-list lemmas -/

theorem mem_aset {α β : Type} [DecidableEq α] (a : α) (b : β) (e : α × β) :
    ∀ m : List (α × β), e ∈ aset m a b → e = (a, b) ∨ e ∈ m
  | [], h => by simpa [aset] using h
  | (k, v) :: rest, h => by
      unfold aset at h
      by_cases hk : k = a
      · rw [if_pos hk] at h
        rcases List.mem_cons.mp h with h | h
        · exact Or.inl h
        · exact Or.inr (List.mem_cons_of_mem _ h)
      · rw [if_neg hk] at h
        rcases List.mem_cons.mp h with h | h
        · exact Or.inr (h ▸ List.mem_cons_self _ _)
        · rcases mem_aset a b e rest h with h2 | h2
          · exact Or.inl h2
          · exact Or.inr (List.mem_cons_of_mem _ h2)

theorem mem_aerase {α β : Type} [DecidableEq α] (a : α) (e : α × β)
    (m : List (α × β)) (h : e ∈ aerase m a) : e ∈ m :=
  (List.mem_filter.mp h).1

theorem alookup_mem {α β : Type} [DecidableEq α] (a : α) (b : β) :
    ∀ m : List (α × β), alookup m a = some b → (a, b) ∈ m
  | [], h => by simp [alookup] at h
  | (k, v) :: rest, h => by
      unfold alookup at h
      by_cases hk : k = a
      · rw [if_pos hk] at h
        obtain rfl : v = b := Option.some.inj h
        exact hk ▸ List.mem_cons_self _ _
      · rw [if_neg hk] at h
        exact List.mem_cons_of_mem _ (alookup_mem a b rest h)

/-! ### Order-book positivity -/

theorem sidePos_aset {side : List (Int × Int)} {p q : Int}
    (hs : sidePos side) (hq : 0 < q) : sidePos (aset side p q) := by
  intro lv hlv
  rcases mem_aset p q lv side hlv with h | h
  · rw [h]; exact hq
  · exact hs lv h

theorem sidePos_aerase {side : List (Int × Int)} {a : Int}
    (hs : sidePos side) : sidePos (aerase side a) :=
  fun lv hlv => hs lv (mem_aerase a lv side hlv)

theorem sidePos_foldl_aset :
    ∀ (levels acc : List (Int × Int)), (∀ lv ∈ levels, 0 < lv.2) → sidePos acc →
      sidePos (levels.foldl (fun m lv => aset m lv.1 lv.2) acc)
  | [], acc, _, ha => ha
  | lv :: rest, acc, h, ha => by
      simp only [List.foldl_cons]
      exact sidePos_foldl_aset rest _ (fun x hx => h x (List.mem_cons_of_mem _ hx))
        (sidePos_aset ha (h lv (List.mem_cons_self _ _)))

theorem sidePos_buildSide (levels : List (Int × Int))
    (h : ∀ lv ∈ levels, 0 < lv.2) : sidePos (buildSide levels) :=
  sidePos_foldl_aset levels [] h (fun lv hlv => absurd hlv (List.not_mem_nil lv))

theorem sidePos_applyDelta {side : List (Int × Int)} (p d : Int)
    (hs : sidePos side) : sidePos (applyDelta side p d) := by
  simp only [applyDelta]
  split_ifs with h
  · exact sidePos_aerase hs
  · exact sidePos_aset hs (by omega)

theorem booksPos_step (bs : List (String × Orderbook)) (m : WsMsg)
    (hb : booksPos bs) (hm : snapPos m = true) : booksPos (stepBooks bs m) := by
  cases m with
  | obSnapshot t ys ns =>
      intro e he
      rcases mem_aset t _ e bs he with h | h
      · rw [h]
        simp only [snapPos, Bool.and_eq_true, List.all_eq_true, decide_eq_true_eq] at hm
        exact ⟨sidePos_buildSide ys hm.1, sidePos_buildSide ns hm.2⟩
      · exact hb e h
  | obDelta t p d sd =>
      simp only [stepBooks]
      cases hlk : alookup bs t with
      | none => exact hb
      | some b =>
          have hbp : bookPos b := hb (t, b) (alookup_mem t b bs hlk)
          dsimp only
          by_cases hr : b.ready
          · rw [if_pos hr]
            by_cases hsd : sd = "yes"
            · rw [if_pos hsd]
              intro e he
              rcases mem_aset t _ e bs he with h | h
              · rw [h]
                exact ⟨sidePos_applyDelta p d hbp.1, hbp.2⟩
              · exact hb e h
            · rw [if_neg hsd]
              intro e he
              rcases mem_aset t _ e bs he with h | h
              · rw [h]
                exact ⟨hbp.1, sidePos_applyDelta p d hbp.2⟩
              · exact hb e h
          · rw [if_neg hr]; exact hb
  | tickerMsg t p => exact hb
  | reconnect => intro e he; exact absurd he (List.not_mem_nil e)

theorem booksPos_foldl :
    ∀ (ms : List WsMsg) (bs : List (String × Orderbook)),
      (∀ m ∈ ms, snapPos m = true) → booksPos bs → booksPos (ms.foldl stepBooks bs)
  | [], _, _, hb => hb
  | m :: rest, bs, h, hb => by
      simp only [List.foldl_cons]
      exact booksPos_foldl rest _ (fun x hx => h x (List.mem_cons_of_mem _ hx))
        (booksPos_step bs m hb (h m (List.mem_cons_self _ _)))

theorem runBooks_append (xs ys : List WsMsg) :
    runBooks (xs ++ ys) = List.foldl stepBooks (runBooks xs) ys := by
  unfold runBooks
  rw [List.foldl_append]

theorem stepBooks_delta_notReady (bs : List (String × Orderbook))
    (t : String) (p d : Int) (sd : String) (h : notReadyAt bs t) :
    stepBooks bs (WsMsg.obDelta t p d sd) = bs := by
  simp only [stepBooks]
  cases hlk : alookup bs t with
  | none => rfl
  | some b => simp [h b hlk]

/-- C1 corrected: the invariant as claimed fails on the code, because an
orderbook_snapshot message is stored verbatim; a snapshot carrying a level
of quantity zero puts that level in the book. -/
theorem orderbook_nonpos_snapshot_cex :
    ¬ booksPos (runBooks [WsMsg.obSnapshot "T" [(50, 0)] []]) := by decide

/-- C1 amended: provided every orderbook_snapshot message carries only
levels with positive quantity, no book level ever has quantity at most
zero, over any message sequence with interleaved reconnects; and a delta
arriving while the addressed book is absent or not ready leaves the state
unchanged, so it is never reflected in any subsequent Snapshot. -/
theorem orderbook_invariant_amended (ms : List WsMsg)
    (h : ∀ m ∈ ms, snapPos m = true) :
    booksPos (runBooks ms) ∧
    ∀ (pre rest : List WsMsg) (t : String) (p d : Int) (sd : String),
      notReadyAt (runBooks pre) t →
      runBooks (pre ++ WsMsg.obDelta t p d sd :: rest) = runBooks (pre ++ rest) ∧
      ∀ (md : List (String × MarketMeta)) (pr : List (String × MarketPrice)) (now : Int),
        wsSnapshot md pr (runBooks (pre ++ WsMsg.obDelta t p d sd :: rest)) now =
          wsSnapshot md pr (runBooks (pre ++ rest)) now := by
  constructor
  · exact booksPos_foldl ms [] h (fun e he => absurd he (List.not_mem_nil e))
  · intro pre rest t p d sd hnr
    have key : runBooks (pre ++ WsMsg.obDelta t p d sd :: rest) = runBooks (pre ++ rest) := by
      rw [runBooks_append, runBooks_append, List.foldl_cons,
        stepBooks_delta_notReady _ t p d sd hnr]
    exact ⟨key, fun md pr now => by rw [key]⟩

/-- Witness for the amended C1 at the S2 message sequence. -/
theorem orderbook_invariant_witness :
    (∀ m ∈ wmsS2, snapPos m = true) ∧
    (booksPos (runBooks wmsS2) ∧
     ∀ (pre rest : List WsMsg) (t : String) (p d : Int) (sd : String),
       notReadyAt (runBooks pre) t →
       runBooks (pre ++ WsMsg.obDelta t p d sd :: rest) = runBooks (pre ++ rest) ∧
       ∀ (md : List (String × MarketMeta)) (pr : List (String × MarketPrice)) (now : Int),
         wsSnapshot md pr (runBooks (pre ++ WsMsg.obDelta t p d sd :: rest)) now =
           wsSnapshot md pr (runBooks (pre ++ rest)) now) :=
  ⟨by decide, orderbook_invariant_amended wmsS2 (by decide)⟩

/-! ### Subscription-set lemmas -/

theorem mem_addAll (t : String) :
    ∀ (ts set : List String), t ∈ addAll set ts ↔ (t ∈ set ∨ t ∈ ts)
  | [], set => by simp [addAll]
  | x :: ts, set => by
      rw [addAll, mem_addAll t ts]
      by_cases hx : x ∈ set
      · rw [if_pos hx]
        simp only [List.mem_cons]
        constructor
        · rintro (h | h)
          · exact Or.inl h
          · exact Or.inr (Or.inr h)
        · rintro (h | h | h)
          · exact Or.inl h
          · exact Or.inl (by rw [h]; exact hx)
          · exact Or.inr h
      · rw [if_neg hx]
        simp only [List.mem_append, List.mem_singleton, List.mem_cons]
        tauto

theorem mem_removeAll (t : String) :
    ∀ (ts set : List String), t ∈ removeAll set ts ↔ (t ∈ set ∧ t ∉ ts)
  | [], set => by simp [removeAll]
  | x :: ts, set => by
      rw [removeAll, mem_removeAll t ts]
      simp only [List.mem_filter, decide_eq_true_eq, List.mem_cons]
      tauto

theorem mem_dedup (t : String) (ts : List String) : t ∈ dedup ts ↔ t ∈ ts := by
  unfold dedup
  rw [mem_addAll]
  simp

theorem addStep_subscribed (ta : List String) (s : FeedState) :
    (addStep ta s).1.subscribedTickers = addAll s.subscribedTickers ta := by
  unfold addStep
  split_ifs with h1 h2
  · rw [h1]; rfl
  · rfl
  · rfl

theorem addStep_frame (ta : List String) (s : FeedState) :
    (addStep ta s).1.tickerSID = s.tickerSID ∧
    (addStep ta s).1.orderbookSID = s.orderbookSID ∧
    (addStep ta s).1.prices = s.prices ∧
    (addStep ta s).1.books = s.books ∧
    (addStep ta s).1.metadata = s.metadata ∧
    (addStep ta s).1.desiredTickers = s.desiredTickers := by
  unfold addStep
  split_ifs <;> exact ⟨rfl, rfl, rfl, rfl, rfl, rfl⟩

theorem removeStep_subscribed (tr : List String) (s : FeedState)
    (hsid : s.tickerSID ≠ 0) :
    (removeStep tr s).1.subscribedTickers = removeAll s.subscribedTickers tr := by
  unfold removeStep
  split_ifs with h1
  · rfl
  · have htr : tr = [] := by
      rcases not_and_or.mp h1 with h | h
      · exact not_not.mp h
      · exact absurd (not_not.mp h) hsid
    rw [htr]; rfl

theorem removeStep_frame (tr : List String) (s : FeedState) :
    (removeStep tr s).1.tickerSID = s.tickerSID ∧
    (removeStep tr s).1.prices = s.prices ∧
    (removeStep tr s).1.books = s.books ∧
    (removeStep tr s).1.metadata = s.metadata := by
  unfold removeStep
  split_ifs <;> exact ⟨rfl, rfl, rfl, rfl⟩

theorem cleanupStep_subscribed (tr : List String) (s : FeedState) :
    (cleanupStep tr s).subscribedTickers = s.subscribedTickers := by
  unfold cleanupStep
  split_ifs <;> rfl

theorem updateSubscriptions_connected (tickers : List String) (s : FeedState)
    (hc : s.connected = true) (hn : s.hasConn = true) :
    updateSubscriptions tickers s =
      updateSubsCore { s with desiredTickers := dedup tickers } := by
  unfold updateSubscriptions
  dsimp only
  rw [if_pos hc, if_pos hn]

/-- C2 corrected: on a connected stream whose subscribe acknowledgement
has not yet arrived (tickerSID still zero), removals are skipped, so the
subscribed set after UpdateSubscriptions need not equal the desired set. -/
theorem reconcile_sid_zero_cex :
    ¬ (∀ t, t ∈ (updateSubscriptions ["B"] sidZeroState).1.subscribedTickers ↔
        t ∈ ["B"]) := by
  intro h
  exact absurd ((h "A").mp (by decide)) (by decide)

/-- C2 amended: after UpdateSubscriptions with desired set D completes on
a stream whose connected flag is true, whose connection is non-nil, and
whose tickerSID is non-zero (the subscribe acknowledgement has been
processed), the subscribed set equals exactly D, regardless of whether the
command writes succeeded. -/
theorem reconcile_subscribed_eq_desired (s : FeedState) (D : List String)
    (hc : s.connected = true) (hn : s.hasConn = true) (hsid : s.tickerSID ≠ 0) :
    ∀ t, t ∈ (updateSubscriptions D s).1.subscribedTickers ↔ t ∈ D := by
  intro t
  rw [updateSubscriptions_connected D s hc hn]
  simp only [updateSubsCore]
  rw [cleanupStep_subscribed]
  rw [removeStep_subscribed _ _ (by rw [(addStep_frame _ _).1]; exact hsid)]
  rw [addStep_subscribed]
  rw [mem_removeAll, mem_addAll]
  simp only [List.mem_filter, decide_eq_true_eq, mem_dedup]
  tauto

/-- Witness for the amended C2 at the S4 scenario: subscribed A,B,C with
desired B,C,D. -/
theorem reconcile_subscribed_witness :
    (s4state.connected = true ∧ s4state.hasConn = true ∧ s4state.tickerSID ≠ 0) ∧
    ∀ t, t ∈ (updateSubscriptions ["B", "C", "D"] s4state).1.subscribedTickers ↔
      t ∈ ["B", "C", "D"] :=
  ⟨⟨rfl, rfl, by decide⟩,
   reconcile_subscribed_eq_desired s4state ["B", "C", "D"] rfl rfl (by decide)⟩

theorem updateSubsCore_noop (s : FeedState)
    (h : ∀ t, t ∈ s.subscribedTickers ↔ t ∈ s.desiredTickers) :
    updateSubsCore s = (s, []) := by
  have hta : s.desiredTickers.filter (fun t => decide (t ∉ s.subscribedTickers)) = [] := by
    rw [List.filter_eq_nil_iff]
    intro a ha
    simp only [decide_eq_true_eq, not_not]
    exact (h a).mpr ha
  have htr : s.subscribedTickers.filter (fun t => decide (t ∉ s.desiredTickers)) = [] := by
    rw [List.filter_eq_nil_iff]
    intro a ha
    simp only [decide_eq_true_eq, not_not]
    exact (h a).mp ha
  simp only [updateSubsCore, hta, htr]
  simp [addStep, removeStep, cleanupStep]

/-- C10 confirmed: reconciliation is idempotent.  When the subscribed set
already equals the desired set extensionally, UpdateSubscriptions sends no
command and leaves the subscribed set, prices, books and metadata
unchanged. -/
theorem reconcile_idempotent (s : FeedState) (D : List String)
    (hc : s.connected = true) (h : ∀ t, t ∈ s.subscribedTickers ↔ t ∈ D) :
    (updateSubscriptions D s).2 = [] ∧
    (updateSubscriptions D s).1.subscribedTickers = s.subscribedTickers ∧
    (updateSubscriptions D s).1.prices = s.prices ∧
    (updateSubscriptions D s).1.books = s.books ∧
    (updateSubscriptions D s).1.metadata = s.metadata := by
  by_cases hn : s.hasConn = true
  · rw [updateSubscriptions_connected D s hc hn]
    have hno : updateSubsCore { s with desiredTickers := dedup D } =
        ({ s with desiredTickers := dedup D }, []) :=
      updateSubsCore_noop _ (fun t => (h t).trans (mem_dedup t D).symm)
    rw [hno]
    exact ⟨rfl, rfl, rfl, rfl, rfl⟩
  · unfold updateSubscriptions
    dsimp only
    rw [if_pos hc, if_neg hn]
    exact ⟨rfl, rfl, rfl, rfl, rfl⟩

/-- Witness for C10: a stream subscribed to B and C reconciled against
the same set in a different order. -/
theorem reconcile_idempotent_witness :
    (idemState.connected = true ∧
     (∀ t, t ∈ idemState.subscribedTickers ↔ t ∈ ["C", "B"])) ∧
    ((updateSubscriptions ["C", "B"] idemState).2 = [] ∧
     (updateSubscriptions ["C", "B"] idemState).1.subscribedTickers =
       idemState.subscribedTickers ∧
     (updateSubscriptions ["C", "B"] idemState).1.prices = idemState.prices ∧
     (updateSubscriptions ["C", "B"] idemState).1.books = idemState.books ∧
     (updateSubscriptions ["C", "B"] idemState).1.metadata = idemState.metadata) :=
  ⟨⟨rfl, fun t => by simp [idemState, List.mem_cons]; tauto⟩,
   reconcile_idempotent idemState ["C", "B"] rfl
     (fun t => by simp [idemState, List.mem_cons]; tauto)⟩

/-! ### Reference-index median -/

/-- C3 confirmed: BRTIProxy.Snapshot over the non-stale positive
mid-prices returns the middle value of the sorted prices for an odd fresh
count, the mean of the two middle values for an even positive count, and
the stored last value for a zero count, which is 0 before any successful
computation. -/
theorem brti_median_correct (feeds : List FeedObs) (lastPrice : ℚ) :
    (freshPrices feeds = [] →
      brtiSnapshot feeds lastPrice = (lastPrice, lastPrice) ∧
      brtiSnapshot feeds brtiInitPrice = (0, 0)) ∧
    (∀ sorted : List ℚ, sorted.Perm (freshPrices feeds) →
      sorted.Sorted (· ≤ ·) →
      ((freshPrices feeds).length % 2 = 1 →
        (brtiSnapshot feeds lastPrice).1 = sorted.getD (sorted.length / 2) 0) ∧
      (freshPrices feeds ≠ [] → (freshPrices feeds).length % 2 = 0 →
        (brtiSnapshot feeds lastPrice).1 =
          (sorted.getD (sorted.length / 2 - 1) 0 + sorted.getD (sorted.length / 2) 0) / 2)) := by
  constructor
  · intro he
    constructor <;> simp [brtiSnapshot, he, brtiInitPrice]
  · intro sorted hperm hsort
    have hkey : sorted = sortRat (freshPrices feeds) :=
      List.eq_of_perm_of_sorted (hperm.trans (List.perm_insertionSort _ _).symm)
        hsort (List.sorted_insertionSort _ _)
    have hlen : sorted.length = (freshPrices feeds).length := hperm.length_eq
    constructor
    · intro hodd
      have hne : freshPrices feeds ≠ [] := by
        intro h0
        rw [h0] at hodd
        simp at hodd
      have hbs : (brtiSnapshot feeds lastPrice).1 = median (sortRat (freshPrices feeds)) := by
        simp [brtiSnapshot, hne]
      rw [hbs, ← hkey]
      simp only [median]
      rw [if_neg (by omega : ¬ sorted.length = 0), if_neg (by omega : ¬ sorted.length % 2 = 0)]
    · intro hne heven
      have hbs : (brtiSnapshot feeds lastPrice).1 = median (sortRat (freshPrices feeds)) := by
        simp [brtiSnapshot, hne]
      have hne2 : sorted.length ≠ 0 := by
        rw [hlen]
        intro h0
        exact hne (List.length_eq_zero.mp h0)
      rw [hbs, ← hkey]
      simp only [median]
      rw [if_neg hne2, if_pos (by omega : sorted.length % 2 = 0)]

/-- Witness for C3 at the S1 scenario: three fresh feeds at 70000, 70010,
70020 give a median of 70010; with the third stale, the mean 70005. -/
theorem brti_median_witness :
    (brtiSnapshot [⟨false, 70000⟩, ⟨false, 70010⟩, ⟨false, 70020⟩] 0).1 = 70010 ∧
    (brtiSnapshot [⟨false, 70000⟩, ⟨false, 70010⟩, ⟨true, 70020⟩] 0).1 = 70005 := by
  constructor
  · have h := ((brti_median_correct [⟨false, 70000⟩, ⟨false, 70010⟩, ⟨false, 70020⟩] 0).2
      [70000, 70010, 70020] (by decide) (by decide)).1 (by decide)
    simpa using h
  · have h := ((brti_median_correct [⟨false, 70000⟩, ⟨false, 70010⟩, ⟨true, 70020⟩] 0).2
      [70000, 70010] (by decide) (by decide)).2 (by decide) (by decide)
    norm_num at h
    simpa using h

/-! ### Watchdog and discovery cadence -/

/-- C4 confirmed: with a stubbed clock the watchdog cancels the shared
scope iff lastWriteTime is non-zero and now minus lastWriteTime exceeds
90 seconds; with lastWriteTime zero it never cancels. -/
theorem watchdog_trigger_iff (now lastWrite : Int) :
    (watchdogStall now lastWrite = true ↔
      lastWrite ≠ 0 ∧ now - lastWrite > 90 * NS_PER_SEC) ∧
    watchdogStall now 0 = false := by
  constructor
  · unfold watchdogStall
    split_ifs with h <;> simp [h]
  · rfl

/-- C8 corrected: at minute 13 mod 15 the code returns the 30 s period,
not 5 s as claimed. -/
theorem discovery_minute13_cex :
    discoveryInterval 13 = 30 ∧ discoveryInterval 13 ≠ 5 := by decide

/-- C8 amended: the discovery period is 5 s exactly when the clock minute
mod 15 is 0, 1 or 14, and 30 s for every other minute value. -/
theorem discovery_interval_amended (minute : Nat) :
    (discoveryInterval minute = 5 ↔
      minute % 15 = 0 ∨ minute % 15 = 1 ∨ minute % 15 = 14) ∧
    (discoveryInterval minute = 30 ↔
      ¬(minute % 15 = 0 ∨ minute % 15 = 1 ∨ minute % 15 = 14)) := by
  have hub : minute % 15 < 15 := Nat.mod_lt _ (by decide)
  simp only [discoveryInterval]
  split_ifs with h
  · constructor
    · constructor
      · intro _
        omega
      · intro _
        rfl
    · constructor
      · intro h30
        exact absurd h30 (by decide)
      · intro hne
        exact absurd (by omega) hne
  · constructor
    · constructor
      · intro h5
        exact absurd h5 (by decide)
      · intro hm
        exact absurd (by omega : minute % 15 ≤ 1 ∨ minute % 15 ≥ 14) h
    · constructor
      · intro _
        omega
      · intro _
        rfl

/-! ### Seconds-to-expiry clamping -/

theorem max_tdiv_eq_max_fdiv (a b : Int) (hb : 0 < b) :
    max 0 (a.tdiv b) = max 0 (a.fdiv b) := by
  rcases le_or_lt 0 a with ha | ha
  · rw [Int.fdiv_eq_tdiv ha hb.le]
  · have h1 : a.tdiv b ≤ 0 := by
      have h2 : 0 ≤ (-a).tdiv b := Int.tdiv_nonneg (by omega) hb.le
      rw [Int.neg_tdiv] at h2
      omega
    have h3 : a.fdiv b ≤ 0 := by
      rw [Int.fdiv_eq_ediv _ hb.le]
      exact (Int.ediv_neg' ha hb).le
    rw [max_eq_left h1, max_eq_left h3]

theorem secsLeftClamped_eq (expiry now : Int) :
    secsLeftClamped expiry now = max 0 ((expiry - now).fdiv NS_PER_SEC) ∧
    0 ≤ secsLeftClamped expiry now := by
  have hb : (0 : Int) < NS_PER_SEC := by decide
  have h1 : secsLeftClamped expiry now = max 0 ((expiry - now).tdiv NS_PER_SEC) := by
    simp only [secsLeftClamped]
    split_ifs with h
    · exact (max_eq_left (by omega)).symm
    · exact (max_eq_right (by omega)).symm
  constructor
  · rw [h1, max_tdiv_eq_max_fdiv _ _ hb]
  · rw [h1]
    exact le_max_left 0 _

/-- C5 confirmed: every market view emitted by the WS-merged snapshot and
by the REST fallback has a non-negative secs_left equal to
max 0 (floor of (expiry minus now) in whole seconds) for its contract. -/
theorem secs_left_nonneg_clamped (md : List (String × MarketMeta))
    (pr : List (String × MarketPrice)) (bk : List (String × Orderbook))
    (mkts : List Market) (now : Int) :
    (∀ v ∈ wsSnapshot md pr bk now,
      0 ≤ v.secsLeft ∧
      ∃ e ∈ md, v.secsLeft = max 0 ((e.2.expiry - now).fdiv NS_PER_SEC)) ∧
    (∀ v ∈ restFallback mkts now,
      0 ≤ v.secsLeft ∧
      ∃ m ∈ mkts, v.secsLeft = max 0 ((m.expiry - now).fdiv NS_PER_SEC)) := by
  constructor
  · intro v hv
    rcases List.mem_map.mp hv with ⟨e, he, rfl⟩
    have hsl : (mkWsView pr bk now e.1 e.2).secsLeft = secsLeftClamped e.2.expiry now := by
      simp only [mkWsView]
      cases alookup pr e.1 <;> cases alookup bk e.1 <;> dsimp only <;>
        first
        | rfl
        | (split_ifs <;> rfl)
    rcases secsLeftClamped_eq e.2.expiry now with ⟨heq, hnn⟩
    rw [hsl]
    exact ⟨hnn, e, he, heq⟩
  · intro v hv
    rcases List.mem_map.mp hv with ⟨m, hm, rfl⟩
    rcases secsLeftClamped_eq m.expiry now with ⟨heq, hnn⟩
    exact ⟨hnn, m, hm, heq⟩

/-- Witness for C5 at the S6 scenario: a contract five seconds past its
expiry yields secs_left = 0, never a negative value. -/
theorem secs_left_witness :
    mkWsView [] [] (5 * NS_PER_SEC) "K" ⟨"open", "", 0, 0⟩ ∈
      wsSnapshot [("K", ⟨"open", "", 0, 0⟩)] [] [] (5 * NS_PER_SEC) ∧
    (0 ≤ (mkWsView [] [] (5 * NS_PER_SEC) "K" ⟨"open", "", 0, 0⟩).secsLeft ∧
     ∃ e ∈ [(("K" : String), (⟨"open", "", 0, 0⟩ : MarketMeta))],
       (mkWsView [] [] (5 * NS_PER_SEC) "K" ⟨"open", "", 0, 0⟩).secsLeft =
         max 0 ((e.2.expiry - 5 * NS_PER_SEC).fdiv NS_PER_SEC)) ∧
    (mkWsView [] [] (5 * NS_PER_SEC) "K" ⟨"open", "", 0, 0⟩).secsLeft = 0 :=
  ⟨List.mem_singleton_self _,
   (secs_left_nonneg_clamped [("K", ⟨"open", "", 0, 0⟩)] [] [] [] (5 * NS_PER_SEC)).1 _
     (List.mem_singleton_self _),
   by decide⟩

/-! ### Connect-time reset -/

/-- C6 confirmed: the connect-time reset replaces the connection, zeroes
both SIDs, empties the subscribed set, zeroes the command sequence and
clears all order books (so no book is ready), while leaving the last-known
contract prices and metadata unchanged. -/
theorem post_dial_reset (s : FeedState) :
    (postDial s).hasConn = true ∧
    (postDial s).tickerSID = 0 ∧
    (postDial s).orderbookSID = 0 ∧
    (postDial s).subscribedTickers = [] ∧
    (postDial s).cmdSeq = 0 ∧
    (postDial s).books = [] ∧
    (∀ t, alookup (postDial s).books t = none) ∧
    (postDial s).prices = s.prices ∧
    (postDial s).metadata = s.metadata ∧
    (postDial s).desiredTickers = s.desiredTickers :=
  ⟨rfl, rfl, rfl, rfl, rfl, rfl, fun _ => rfl, rfl, rfl, rfl⟩

/-! ### Daily rotation of the writer -/

/-- C7 confirmed: Write appends the serialized record as one line to the
file dir/pfx-today.jsonl; when the open file's date differs from today,
the previous file is closed and handed to the compressor before the line
is written to the newly opened file; the state holds at most one open
file, and it is the one for today. -/
theorem writer_daily_rotation (dir pfx today line : String) (s : WriterState)
    (hinv : ∀ p, s.file = some p → p = logPath dir pfx s.fileDate) :
    (writeRecord dir pfx today line s).1 =
      ⟨some (logPath dir pfx today), today⟩ ∧
    (s.file.isSome → s.fileDate = today →
      (writeRecord dir pfx today line s).2 =
        [.appendLine (logPath dir pfx today) line]) ∧
    (∀ p, s.file = some p → s.fileDate ≠ today →
      (writeRecord dir pfx today line s).2 =
        [.closeFile (logPath dir pfx s.fileDate),
         .openFile (logPath dir pfx today),
         .compress (logPath dir pfx s.fileDate),
         .appendLine (logPath dir pfx today) line]) ∧
    (s.file = none →
      (writeRecord dir pfx today line s).2 =
        [.openFile (logPath dir pfx today),
         .appendLine (logPath dir pfx today) line]) := by
  obtain ⟨f, d⟩ := s
  cases f with
  | none =>
      simp only [writeRecord, ensureFile]
      rw [if_neg (by simp)]
      refine ⟨rfl, ?_, ?_, fun _ => rfl⟩
      · intro h
        simp at h
      · intro p hp
        simp at hp
  | some p =>
      have hp : p = logPath dir pfx d := hinv p rfl
      subst hp
      by_cases hd : d = today
      · subst hd
        simp only [writeRecord, ensureFile]
        rw [if_pos (by simp)]
        refine ⟨rfl, fun _ _ => rfl, ?_, ?_⟩
        · intro q _ hne
          exact absurd rfl hne
        · intro h
          exact Option.noConfusion h
      · simp only [writeRecord, ensureFile]
        rw [if_neg (by simp [hd])]
        refine ⟨rfl, ?_, ?_, ?_⟩
        · intro _ hdt
          exact absurd hdt hd
        · intro q _ _
          rfl
        · intro h
          exact Option.noConfusion h

/-- Witness for C7 at the S3 rotation scenario: the UTC date advances
from 2024-05-10 to 2024-05-11 and the trace closes and compresses the old
file before appending to the new one. -/
theorem writer_daily_rotation_witness :
    (∀ p, (⟨some "data/x-2024-05-10.jsonl", "2024-05-10"⟩ : WriterState).file = some p →
      p = logPath "data" "x" "2024-05-10") ∧
    (writeRecord "data" "x" "2024-05-11" "rec"
        ⟨some "data/x-2024-05-10.jsonl", "2024-05-10"⟩).2 =
      [.closeFile "data/x-2024-05-10.jsonl",
       .openFile "data/x-2024-05-11.jsonl",
       .compress "data/x-2024-05-10.jsonl",
       .appendLine "data/x-2024-05-11.jsonl" "rec"] :=
  ⟨fun p hp => by cases hp; rfl,
   (writer_daily_rotation "data" "x" "2024-05-11" "rec"
       ⟨some "data/x-2024-05-10.jsonl", "2024-05-10"⟩
       (fun p hp => by cases hp; rfl)).2.2.1
     "data/x-2024-05-10.jsonl" rfl (by decide)⟩

/-! ### Market-list pagination -/

/-- C9 corrected: GetMarkets does not follow the cursor; on a two-page
endpoint it returns only the first page, not all matching markets. -/
theorem get_markets_cursor_cex :
    getMarkets twoPageAPI = [mkMarket "M1"] ∧
    getMarketsAllPages twoPageAPI 2 "" = [mkMarket "M1", mkMarket "M2"] ∧
    getMarkets twoPageAPI ≠ getMarketsAllPages twoPageAPI 2 "" := by
  refine ⟨rfl, rfl, ?_⟩
  decide

/-- C9 amended: GetMarkets sends a single request with limit 200 and
returns the first page only, ignoring the returned cursor; the result
equals all matching markets exactly when the first page's cursor is
already empty. -/
theorem get_markets_single_page (api : MarketsAPI) (fuel : Nat)
    (h : (api.page 200 "").2 = "") :
    getMarkets api = getMarketsAllPages api (fuel + 1) "" := by
  simp [getMarkets, getMarketsAllPages, h]

/-- Witness for the amended C9 on a one-page endpoint. -/
theorem get_markets_single_page_witness :
    (onePageAPI.page 200 "").2 = "" ∧
    getMarkets onePageAPI = getMarketsAllPages onePageAPI 1 "" :=
  ⟨rfl, get_markets_single_page onePageAPI 0 rfl⟩

end Btc15m
